import Mathlib

/-!
# go-checkpoint: client pipeline and session resolution

A shallow embedding of the Go package `checkpoint` (files `errors.go`,
`utils.go`, `client.go`) and of its sub-package `middleware`
(`middleware/middleware.go`).

Conventions of the embedding.

* A Go `string` is a sequence of bytes. It is represented by a Lean `String`
  in which every character stands for one byte, so `len(s)` is `s.length` and
  the slice `s[0:n]` is the first `n` characters.
* Go code mutates readers and writes log lines. The mutable part of the world
  is the record `World`, passed in and returned explicitly.
* A Go pointer that the code dereferences without a nil test is represented
  by the value it points to.
* Functions of the Go standard library are represented by models that follow
  the library's implementation where a result is inspected by this package,
  and by the fields of `Std` where a result is only passed along.
-/

namespace checkpoint

/-! ## Standard library: formatting -/

/-- Hexadecimal digit of `n < 16`, upper or lower case. -/
def hexDigit (upper : Bool) (n : Nat) : Char :=
  if n < 10 then Char.ofNat (48 + n)
  else Char.ofNat ((if upper then 55 else 87) + n)

/-- The double quote character. -/
def dquote : Char := Char.ofNat 34

/-- The backslash character. -/
def bslash : Char := Char.ofNat 92

/-- One byte as `strconv.Quote` writes it: the quote and the backslash are
escaped, control bytes use the short escapes or `\xhh`, printable ASCII is
kept. Bytes from 0x80 on are kept (they are parts of printable UTF-8 text in
the inputs considered here). -/
def quoteChar (c : Char) : List Char :=
  let n := c.toNat
  if n = 34 then [bslash, dquote]
  else if n = 92 then [bslash, bslash]
  else if n = 7 then [bslash, 'a']
  else if n = 8 then [bslash, 'b']
  else if n = 12 then [bslash, 'f']
  else if n = 10 then [bslash, 'n']
  else if n = 13 then [bslash, 'r']
  else if n = 9 then [bslash, 't']
  else if n = 11 then [bslash, 'v']
  else if n < 32 ∨ n = 127 then [bslash, 'x', hexDigit false (n / 16), hexDigit false (n % 16)]
  else [c]

/-- Model of `strconv.Quote`, which the verb `%q` applies to a string. -/
def Quote (s : String) : String :=
  String.mk (dquote :: ((s.data.map quoteChar).flatten ++ [dquote]))

/-- An operand of `fmt.Sprintf`: the package passes strings and ints. -/
inductive Arg where
  | str (s : String)
  | int (n : Int)
  deriving DecidableEq, Repr

/-- Go type name of an operand, as printed in a formatting diagnostic. -/
def Arg.typeName : Arg → String
  | .str _ => "string"
  | .int _ => "int"

/-- The `%v` rendering of an operand. -/
def Arg.render : Arg → String
  | .str s => s
  | .int n => toString n

/-- One verb applied to one operand: `%s`, `%v`, `%q` on a string and `%d`,
`%v` on an int; any other pairing is written as `fmt` writes a verb that the
operand does not support, `%!verb(type=value)`. Flags, width and precision
are outside this model. -/
def formatVerb (verb : Char) (a : Arg) : List Char :=
  match a with
  | .str s =>
    if verb = 's' ∨ verb = 'v' then s.data
    else if verb = 'q' then (Quote s).data
    else '%' :: '!' :: verb :: ("(string=" ++ s ++ ")").data
  | .int n =>
    if verb = 'd' ∨ verb = 'v' then (toString n).data
    else '%' :: '!' :: verb :: ("(int=" ++ toString n ++ ")").data

/-- Operands left over once the format is consumed: `%!(EXTRA type=value, ...)`. -/
def formatExtra : List Arg → List Char
  | [] => []
  | a :: as =>
    ("%!(EXTRA " ++ ", ".intercalate ((a :: as).map fun x => x.typeName ++ "=" ++ x.render)
      ++ ")").data

/-- The formatting loop of `fmt.Sprintf` over the bytes of the format. -/
def sprintfAux : List Char → List Arg → List Char
  | [], args => formatExtra args
  | [c], args => if c = '%' then "%!(NOVERB)".data ++ formatExtra args else c :: formatExtra args
  | c :: v :: rest, args =>
    if c = '%' then
      if v = '%' then '%' :: sprintfAux rest args
      else
        match args with
        | [] => '%' :: '!' :: v :: ("(MISSING)".data ++ sprintfAux rest [])
        | a :: as => formatVerb v a ++ sprintfAux rest as
    else c :: sprintfAux (v :: rest) args

/-- Model of `fmt.Sprintf(format, args...)`. -/
def Sprintf (format : String) (args : List Arg) : String :=
  String.mk (sprintfAux format.data args)

/-! ## Standard library: HTTP headers -/

/-- Token bytes of a header field name (`validHeaderFieldByte`). -/
def validHeaderFieldByte (c : Char) : Bool :=
  let n := c.toNat
  n = 33 || (35 ≤ n && n ≤ 39) || n = 42 || n = 43 || n = 45 || n = 46 ||
  (48 ≤ n && n ≤ 57) || (65 ≤ n && n ≤ 90) || (94 ≤ n && n ≤ 122) || n = 124 || n = 126

/-- Upper-cases the first letter and every letter after a dash, lower-cases
the other letters. -/
def canonicalize : Bool → List Char → List Char
  | _, [] => []
  | upper, c :: cs =>
    let n := c.toNat
    let c1 :=
      if upper ∧ 97 ≤ n ∧ n ≤ 122 then Char.ofNat (n - 32)
      else if ¬ upper ∧ 65 ≤ n ∧ n ≤ 90 then Char.ofNat (n + 32)
      else c
    c1 :: canonicalize (c1.toNat = 45) cs

/-- Model of `textproto.CanonicalMIMEHeaderKey`: a key made of token bytes is
canonicalised, any other key is returned unchanged. -/
def CanonicalMIMEHeaderKey (s : String) : String :=
  if s.data.all validHeaderFieldByte then String.mk (canonicalize true s.data) else s

/-- An `http.Header`: a map from field names to the values of the field, as
an association list in which the first entry of a key is the one in force. -/
structure Header where
  entries : List (String × List String)
  deriving DecidableEq, Repr

/-- The empty header, `make(http.Header)`. -/
def Header.empty : Header := ⟨[]⟩

/-- `h.Get(key)`: the first value of the canonical key, `""` without one. -/
def Header.Get (h : Header) (key : String) : String :=
  match h.entries.lookup (CanonicalMIMEHeaderKey key) with
  | some (v :: _) => v
  | _ => ""

/-- `h.Values(key)`: all values of the canonical key. -/
def Header.Values (h : Header) (key : String) : List String :=
  (h.entries.lookup (CanonicalMIMEHeaderKey key)).getD []

/-- `h.Set(key, value)`: the canonical key now has exactly this value. -/
def Header.Set (h : Header) (key value : String) : Header :=
  ⟨(CanonicalMIMEHeaderKey key, [value]) ::
    h.entries.filter fun kv => kv.1 != CanonicalMIMEHeaderKey key⟩

/-- `_, ok := h[key]` on the canonical key. -/
def Header.Has (h : Header) (key : String) : Bool :=
  (h.entries.lookup (CanonicalMIMEHeaderKey key)).isSome

/-! ## Standard library: URLs -/

/-- The escaping modes of `net/url` that this package reaches. -/
inductive encoding where
  | encodePath
  | encodeHost
  | encodeQueryComponent
  deriving DecidableEq, Repr

/-- Model of `url.shouldEscape` for the three modes above. -/
def shouldEscape (c : Char) (mode : encoding) : Bool :=
  let n := c.toNat
  if (97 ≤ n ∧ n ≤ 122) ∨ (65 ≤ n ∧ n ≤ 90) ∨ (48 ≤ n ∧ n ≤ 57) then false
  else if mode = .encodeHost ∧
      (n = 33 ∨ n = 36 ∨ n = 38 ∨ n = 39 ∨ n = 40 ∨ n = 41 ∨ n = 42 ∨ n = 43 ∨ n = 44 ∨
        n = 59 ∨ n = 61 ∨ n = 58 ∨ n = 91 ∨ n = 93 ∨ n = 60 ∨ n = 62 ∨ n = 34) then false
  else if n = 45 ∨ n = 95 ∨ n = 46 ∨ n = 126 then false
  else if n = 36 ∨ n = 38 ∨ n = 43 ∨ n = 44 ∨ n = 47 ∨ n = 58 ∨ n = 59 ∨ n = 61 ∨ n = 63 ∨
      n = 64 then
    match mode with
    | .encodePath => n = 63
    | .encodeQueryComponent => true
    | .encodeHost => true
  else true

/-- One byte as `url.escape` writes it: `%XX` when it must be escaped (a
space becomes `+` in a query component), itself otherwise. -/
def escapeChar (mode : encoding) (c : Char) : List Char :=
  if shouldEscape c mode then
    if c = ' ' ∧ mode = .encodeQueryComponent then ['+']
    else ['%', hexDigit true (c.toNat / 16), hexDigit true (c.toNat % 16)]
  else [c]

/-- Model of `url.escape(s, mode)`. -/
def escape (s : String) (mode : encoding) : String :=
  String.mk (s.data.map (escapeChar mode)).flatten

/-- Model of `url.QueryEscape`. -/
def QueryEscape (s : String) : String := escape s .encodeQueryComponent

/-- A `url.URL` with the fields this package sets; the fields `Opaque`,
`User`, `RawPath`, `ForceQuery` and `Fragment` stay at their zero values in
every URL the client builds. -/
structure URL where
  Scheme : String
  Host : String
  Path : String
  RawQuery : String
  deriving DecidableEq, Repr

/-- Model of `u.EscapedPath()` for an empty `RawPath`. -/
def URL.EscapedPath (u : URL) : String :=
  if u.Path = "*" then "*" else escape u.Path .encodePath

/-- Model of `u.String()`: `scheme:` when there is a scheme, `//host` when
there is a scheme or a host, the escaped path, `?query` when there is a query. -/
def URL.String (u : URL) : String :=
  let buf := if u.Scheme ≠ "" then u.Scheme ++ ":" else ""
  let buf :=
    if u.Scheme ≠ "" ∨ u.Host ≠ "" then
      let buf := if u.Host ≠ "" ∨ u.Path ≠ "" then buf ++ "//" else buf
      if u.Host ≠ "" then buf ++ escape u.Host .encodeHost else buf
    else buf
  let path := u.EscapedPath
  let buf := if path ≠ "" ∧ path.data.head? ≠ some '/' ∧ u.Host ≠ "" then buf ++ "/" else buf
  let buf :=
    if buf = "" ∧ ':' ∈ path.data.takeWhile (fun c => c ≠ '/') then buf ++ "./" else buf
  let buf := buf ++ path
  if u.RawQuery ≠ "" then buf ++ "?" ++ u.RawQuery else buf

/-- A `url.Values`: a map from keys to lists of values, as an association
list in which the first entry of a key is the one in force. -/
abbrev Values := List (String × List String)

/-- `v[key]` with its presence flag. -/
def Values.lookup (v : Values) (key : String) : Option (List String) :=
  List.lookup key v

/-- Model of `v.Encode()`: the keys in sorted order, every value written as
`key=value` with both sides query-escaped, joined by `&`. -/
def Values.Encode (v : Values) : String :=
  let keys := ((v.map Prod.fst).eraseDups).insertionSort (fun a b => a ≤ b)
  "&".intercalate
    (keys.map fun k =>
      ((List.lookup k v).getD []).map fun x => QueryEscape k ++ "=" ++ QueryEscape x).flatten

/-! ## Standard library: media types -/

/-- Model of `mime.isTSpecial`. -/
def isTSpecial (c : Char) : Bool :=
  let n := c.toNat
  n = 40 || n = 41 || n = 60 || n = 62 || n = 64 || n = 44 || n = 59 || n = 58 || n = 92 ||
  n = 34 || n = 47 || n = 91 || n = 93 || n = 63 || n = 61

/-- Model of `mime.isTokenChar`. -/
def isTokenChar (c : Char) : Bool :=
  32 < c.toNat && c.toNat < 127 && !isTSpecial c

/-- ASCII white space, the part of `unicode.IsSpace` below 0x80. -/
def isSpace (c : Char) : Bool :=
  let n := c.toNat
  n = 32 || (9 ≤ n && n ≤ 13)

/-- ASCII lower-casing of one byte. -/
def lowerChar (c : Char) : Char :=
  if 65 ≤ c.toNat ∧ c.toNat ≤ 90 then Char.ofNat (c.toNat + 32) else c

/-- Removes leading white space (`strings.TrimLeftFunc(v, unicode.IsSpace)`). -/
def trimLeft (v : List Char) : List Char := v.dropWhile isSpace

/-- Removes white space at both ends (`strings.TrimSpace`). -/
def trimSpace (v : List Char) : List Char :=
  (trimLeft (trimLeft v).reverse).reverse

/-- Model of `mime.consumeToken`: the longest run of token bytes at the
front and the rest. -/
def consumeToken (v : List Char) : List Char × List Char :=
  (v.takeWhile isTokenChar, v.dropWhile isTokenChar)

/-- The quoted-string loop of `mime.consumeValue`; `none` when the closing
quote is missing or a line break is met. -/
def consumeQuoted : List Char → List Char → Option (List Char × List Char)
  | [], _ => none
  | [c], buffer => if c = dquote then some (buffer, []) else none
  | c :: d :: rest, buffer =>
    if c = dquote then some (buffer, d :: rest)
    else if c = bslash ∧ isTSpecial d then consumeQuoted rest (buffer ++ [d])
    else if c.toNat = 13 ∨ c.toNat = 10 then none
    else consumeQuoted (d :: rest) (buffer ++ [c])

/-- Model of `mime.consumeValue`: a token or a quoted string; `([], v)` on
failure. -/
def consumeValue (v : List Char) : List Char × List Char :=
  match v with
  | [] => ([], [])
  | c :: rest =>
    if c ≠ dquote then consumeToken v
    else (consumeQuoted rest []).getD ([], v)

/-- Model of `mime.consumeMediaParam`: `;`, a token, `=`, a value, with white
space allowed around each; `([], [], v)` on failure. -/
def consumeMediaParam (v : List Char) : List Char × List Char × List Char :=
  match trimLeft v with
  | [] => ([], [], v)
  | c :: rest =>
    if c ≠ ';' then ([], [], v)
    else
      let (param, rest) := consumeToken (trimLeft rest)
      let param := param.map lowerChar
      if param = [] then ([], [], v)
      else
        match trimLeft rest with
        | [] => ([], [], v)
        | e :: rest =>
          if e ≠ '=' then ([], [], v)
          else
            let rest := trimLeft rest
            let (value, rest2) := consumeValue rest
            if value = [] ∧ rest2 = rest then ([], [], v) else (param, value, rest2)

/-- Model of `mime.checkMediaTypeDisposition`: `token` or `token/token`. -/
def checkMediaTypeDisposition (s : List Char) : Option String :=
  let (typ, rest) := consumeToken s
  if typ = [] then some "mime: no media type"
  else
    match rest with
    | [] => none
    | c :: rest1 =>
      if c ≠ '/' then some "mime: expected slash after first token"
      else
        let (subtype, rest2) := consumeToken rest1
        if subtype = [] then some "mime: expected token after slash"
        else if rest2 ≠ [] then some "mime: unexpected content after media subtype"
        else none

/-- The parameter loop of `mime.ParseMediaType` after the media type: the
error it ends with, if any, and whether that error keeps the media type. Every
round removes at least the `;` of a parameter, so the length of the input
bounds the number of rounds. -/
def parseParams : Nat → List Char → List (List Char × List Char) → Option (String × Bool)
  | 0, _, _ => none
  | fuel + 1, v, seen =>
    match trimLeft v with
    | [] => none
    | v1 =>
      let (key, value, rest) := consumeMediaParam v1
      if key = [] then
        if trimSpace rest = [';'] then none
        else some ("mime: invalid media parameter", true)
      else
        match seen.lookup key with
        | some old =>
          if old ≠ value then some ("mime: duplicate parameter name", false)
          else parseParams fuel rest ((key, value) :: seen)
        | none => parseParams fuel rest ((key, value) :: seen)

/-- Model of `mime.ParseMediaType(v)` without the parameter map, which
`decodeResponseAsJSON` discards: the media type, lower-cased and trimmed, and
the error. -/
def ParseMediaType (v : String) : String × Option String :=
  let base := v.data.takeWhile (fun c => c ≠ ';')
  let mediatype := trimSpace (base.map lowerChar)
  match checkMediaTypeDisposition mediatype with
  | some err => ("", some err)
  | none =>
    match parseParams (v.length + 1) (v.data.dropWhile (fun c => c ≠ ';')) [] with
    | some (err, keep) => (if keep then String.mk mediatype else "", some err)
    | none => (String.mk mediatype, none)

/-! ## Standard library: contexts -/

/-- A context key. Keys are compared with their dynamic type, so a key of the
unexported type `middleware.ctxKeyType` differs from every key made outside
that package. -/
inductive Key where
  | ctxKeyType (n : Int)
  | foreign (id : Nat)
  deriving DecidableEq, Repr

/-- A value held in an `interface{}`: nil, a string, or a value of another type. -/
inductive Any where
  | nil
  | string (s : String)
  | other (id : Nat)
  deriving DecidableEq, Repr

/-- The value part of a `context.Context`: the bindings added by
`context.WithValue`, innermost first; `[]` is `context.Background()`.
Deadlines and cancellation are not part of the model. -/
abbrev Context := List (Key × Any)

/-- `context.Background()`. -/
def Background : Context := []

/-- `context.WithValue(ctx, key, val)`. -/
def WithValue (ctx : Context) (key : Key) (val : Any) : Context := (key, val) :: ctx

/-- `ctx.Value(key)`: the innermost binding of the key, nil without one. -/
def Value (ctx : Context) (key : Key) : Any := (List.lookup key ctx).getD Any.nil

/-! ## Standard library: readers, responses, requests -/

/-- State of an `io.ReadCloser`: the bytes and the error that reading it to
the end delivers (`none` for a clean end of stream), and how often it has
been read to the end and closed. -/
structure Reader where
  data : String
  err : Option String
  reads : Nat
  closes : Nat
  deriving DecidableEq, Repr

/-- A line of the access log: the message (the request method), the URL and
the status. The elapsed time of the line is not part of the model. -/
structure LogEntry where
  msg : String
  url : String
  status : Int
  deriving DecidableEq, Repr

/-- The mutable world: the reader behind every body reference, and the lines
written to the client's logger. -/
structure World where
  readers : Nat → Reader
  log : List LogEntry

/-- `ioutil.ReadAll(r)` on the reader behind reference `h`: the bytes, the
error, and the world in which the reader is drained. -/
def World.ReadAll (w : World) (h : Nat) : (String × Option String) × World :=
  let r := w.readers h
  ((r.data, r.err),
    { w with readers := fun k =>
        if k = h then { r with data := "", reads := r.reads + 1 } else w.readers k })

/-- `r.Close()` on the reader behind reference `h`. -/
def World.Close (w : World) (h : Nat) : World :=
  { w with readers := fun k =>
      if k = h then { w.readers h with closes := (w.readers h).closes + 1 } else w.readers k }

/-- `logger.Infow(msg, "url", url, "time", ..., "status", status)`: one more
line in the access log. -/
def World.Infow (w : World) (msg url : String) (status : Int) : World :=
  { w with log := w.log ++ [{ msg := msg, url := url, status := status }] }

/-- An `http.Response`. `Body` is nil or the reference of a reader. -/
structure Response where
  StatusCode : Int
  Status : String
  Header : Header
  ContentLength : Int
  Body : Option Nat
  deriving DecidableEq, Repr

/-- The function literal that `errorFromResponse` and `doGet` both defer:
`if resp.Body != nil { _ = resp.Body.Close() }`. -/
def deferredClose (resp : Response) (w : World) : World :=
  match resp.Body with
  | some h => w.Close h
  | none => w

/-- An `http.Request`. -/
structure Request where
  Method : String
  URL : URL
  Header : Header
  ctx : Context
  deriving DecidableEq, Repr

/-- `req.Context()`. -/
def Request.Context (req : Request) : Context := req.ctx

/-- `req.WithContext(ctx)`: a copy of the request with the context replaced. -/
def Request.WithContext (req : Request) (ctx : checkpoint.Context) : Request := { req with ctx := ctx }

/-- An `http.Cookie` as read from a request. -/
structure Cookie where
  Name : String
  Value : String
  deriving DecidableEq, Repr

/-- Parsers of the standard library whose results this package only looks
things up in or passes along. -/
structure Std where
  /-- The URL `http.NewRequest` stores for a raw URL (`url.Parse`, then the
  removal of an empty port), or the parse error. -/
  ParseURL : String → Except String URL
  /-- The values `URL.Query()` parses from a raw query; malformed pairs are
  dropped. -/
  ParseQuery : String → Values
  /-- The cookies `readCookies` parses from the lines of the `Cookie`
  header, in order; malformed cookies are dropped. -/
  readCookies : List String → List Cookie

/-- `u.Query()`. -/
def URL.Query (L : Std) (u : URL) : Values := L.ParseQuery u.RawQuery

/-- `req.Cookie(name)`: the first cookie of that name, `none` for
`http.ErrNoCookie`. -/
def Request.Cookie (L : Std) (req : Request) (name : String) : Option Cookie :=
  (L.readCookies (req.Header.Values "Cookie")).find? fun c => c.Name = name

/-- Model of `http.validMethod`: a non-empty token. -/
def validMethod (method : String) : Bool :=
  0 < method.length && method.data.all validHeaderFieldByte

/-- The outcome of a Go call that may panic. -/
inductive Outcome (α : Type) where
  | ret (a : α)
  | panic (msg : String)
  deriving Repr

/-! ## errors.go -/

/-- The struct `Error`. -/
structure Error where
  Req : Request
  Resp : Response
  Body : String
  Message : String
  deriving DecidableEq, Repr

/-- A non-nil value of the interface `error`: a `*Error` of this package, an
error made elsewhere (by `errors.New`, the transport or a library) known by
its message, or an error made by `fmt.Errorf` with `%w` around a cause. -/
inductive GoError where
  | status (e : Error)
  | lib (msg : String)
  | wrap (msg : String) (cause : String)
  deriving DecidableEq, Repr

/-- The function `isStatus`: the type assertion `err.(*Error)` and the
comparison of the status code. -/
def isStatus (err : GoError) (status : Int) : Bool :=
  match err with
  | .status e => e.Resp.StatusCode = status
  | _ => false

/-- The method `(*Error).Error`. The local `body` holds the truncated body;
the string returned is formatted from `e.Body`. -/
def Error.Error (e : Error) : String :=
  let limit : Int := 500
  let body := e.Body
  let body :=
    if (body.length : Int) > limit then
      String.mk (body.data.take limit.toNat) ++
        ("... [" ++ toString (limit - (body.length : Int)) ++ " more bytes]")
    else body
  e.Message ++ ": Request [" ++ e.Req.Method ++ " " ++ e.Req.URL.String ++
    "] failed with status " ++ toString e.Resp.StatusCode ++ " (" ++ e.Resp.Status ++ "): " ++
    e.Body

/-- The function `errorFromResponse`, with the world before the call as
argument and the world after it as second result. -/
def errorFromResponse (req : Request) (resp : Response) (message : String)
    (format : List Arg) (w : World) : (Option GoError × Bool) × World :=
  if resp.StatusCode ≥ 200 ∧ resp.StatusCode ≤ 299 then ((none, false), w)
  else
    let (body, w1) :=
      match resp.Body with
      | some h =>
        let ((b, err), w1) := w.ReadAll h
        match err with
        | some msg => ("[error reading response body: " ++ msg ++ "]", w1)
        | none => if b.length > 0 then (b, w1) else ("[no data in response]", w1)
      | none => ("", w)
    let result : GoError :=
      .status { Resp := resp, Req := req, Body := body, Message := Sprintf message format }
    ((some result, true), deferredClose resp w1)

/-- The function `decodeResponseAsJSON`. `Unmarshal` is `json.Unmarshal` for
the type of the target: the error message, if any, and the target after the
call. Reading a nil `body` panics. -/
def decodeResponseAsJSON {T : Type} (Unmarshal : String → T → Option String × T)
    (resp : Response) (body : Option Nat) (out : T) (w : World) :
    Outcome (Option GoError) × T × World :=
  if resp.ContentLength = 0 then (.ret none, out, w)
  else
    let contentType := resp.Header.Get "Content-Type"
    if contentType = "" then
      (.ret (some (.lib "expected response to be JSON, received bytes")), out, w)
    else
      match ParseMediaType contentType with
      | (_, some err) =>
        (.ret (some (.wrap ("invalid content type " ++ Quote contentType ++ ": " ++ err) err)),
          out, w)
      | (mediaType, none) =>
        if mediaType ≠ "application/json" then
          (.ret (some (.lib ("expected response to be JSON, got " ++ Quote mediaType))), out, w)
        else
          match body with
          | none => (.panic "runtime error: invalid memory address or nil pointer dereference",
              out, w)
          | some h =>
            let ((b, err), w1) := w.ReadAll h
            match err with
            | some msg =>
              (.ret (some (.wrap ("could not read entire response: " ++ msg) msg)), out, w1)
            | none =>
              match Unmarshal b out with
              | (some msg, out1) =>
                (.ret (some (.wrap ("could not decode response JSON: " ++ msg) msg)), out1, w1)
              | (none, out1) => (.ret none, out1, w1)

/-! ## client.go -/

/-- Model of `http.NewRequest(method, url, nil)`: an empty method means
`GET`, the method must be a token, the URL must parse; the request made has
an empty header and the background context. -/
def NewRequest (L : Std) (method url : String) : Except GoError Request :=
  let method := if method = "" then "GET" else method
  if ¬ validMethod method then .error (.lib ("net/http: invalid method " ++ Quote method))
  else
    match L.ParseURL url with
    | .error msg => .error (.lib msg)
    | .ok u => .ok { Method := method, URL := u, Header := Header.empty, ctx := Background }

/-- The struct `Client`. The field `hc` is the transport: `hc.Do(req)` in a
world gives an error or a response, and the world after the exchange. The
lines written to the field `logger` are collected in `World.log`. -/
structure Client where
  hc : Request → World → Except GoError Response × World
  scheme : String
  host : String
  session : String

/-- The method `(*Client).WithSession`: a copy with the session replaced. -/
def Client.WithSession (c : Client) (session : String) : Client :=
  { c with session := session }

/-- The struct `getIdentityResponse`; the types `Identity` and `Profile` are
declared outside the files at hand and are parameters. -/
structure getIdentityResponse (Identity Profile : Type) where
  Identity : Option Identity
  Profile : Option Profile

/-- The method `(*Client).formatURL`. `params` is `none` for a nil map. -/
def Client.formatURL (c : Client) (path : String) (params : Option Values) : String :=
  let result : URL :=
    { Scheme := c.scheme, Host := c.host, Path := "/api/checkpoint/v1" ++ path, RawQuery := "" }
  let result :=
    match params with
    | some v => { result with RawQuery := Values.Encode v }
    | none => result
  result.String

/-- The method `(*Client).newRequest`. -/
def Client.newRequest (L : Std) (c : Client) (method path : String) (params : Option Values) :
    Except GoError Request :=
  let url := c.formatURL path params
  match NewRequest L method url with
  | .error err => .error err
  | .ok req =>
    let req := { req with Header := req.Header.Set "Accept" "application/json" }
    let req :=
      if c.session ≠ "" then
        { req with Header := req.Header.Set "Cookie" ("checkpoint.session=" ++ c.session) }
      else req
    .ok req

/-- The method `(*Client).checkResponse`: one line to the access log, then
`errorFromResponse`. -/
def Client.checkResponse (_c : Client) (req : Request) (resp : Response) (w : World) :
    (Option GoError × Bool) × World :=
  let w1 := w.Infow req.Method req.URL.String resp.StatusCode
  errorFromResponse req resp "Checkpoint" [] w1

/-- The method `(*Client).doGet`. The results are the pair returned (or the
panic), the target `output` after the call, and the world after the deferred
close of the body has run. -/
def Client.doGet {T : Type} (L : Std) (Unmarshal : String → T → Option String × T)
    (c : Client) (ctx : Context) (path : String) (params : Option Values) (output : T)
    (w : World) : Outcome (Option Response × Option GoError) × T × World :=
  match c.newRequest L "GET" path params with
  | .error err => (.ret (none, some err), output, w)
  | .ok req =>
    match c.hc (req.WithContext ctx) w with
    | (.error err, w1) => (.ret (none, some err), output, w1)
    | (.ok resp, w1) =>
      let deferred := deferredClose resp
      match c.checkResponse req resp w1 with
      | ((err, true), w2) => (.ret (some resp, err), output, deferred w2)
      | ((_, false), w2) =>
        match errorFromResponse req resp "Checkpoint" [] w2 with
        | ((e, true), w3) => (.ret (none, e), output, deferred w3)
        | ((_, false), w3) =>
          match decodeResponseAsJSON Unmarshal resp resp.Body output w3 with
          | (.panic msg, out, w4) => (.panic msg, out, deferred w4)
          | (.ret (some err), out, w4) => (.ret (none, some err), out, deferred w4)
          | (.ret none, out, w4) => (.ret (some resp, none), out, deferred w4)

/-- The method `(*Client).GetCurrentIdentity`. -/
def Client.GetCurrentIdentity {Identity Profile : Type} (L : Std)
    (Unmarshal : String → getIdentityResponse Identity Profile →
      Option String × getIdentityResponse Identity Profile)
    (c : Client) (ctx : Context) (w : World) :
    Outcome (Option Identity × Option GoError) × World :=
  let resp : getIdentityResponse Identity Profile := { Identity := none, Profile := none }
  match c.doGet L Unmarshal ctx "/identities/me" (some []) resp w with
  | (.panic msg, _, w1) => (.panic msg, w1)
  | (.ret (_, some err), _, w1) =>
    if isStatus err 412 then (.ret (none, none), w1) else (.ret (none, some err), w1)
  | (.ret (_, none), resp, w1) => (.ret (resp.Identity, none), w1)

/-- The method `(*Client).GetCurrentUser`. -/
def Client.GetCurrentUser {Identity Profile : Type} (L : Std)
    (Unmarshal : String → getIdentityResponse Identity Profile →
      Option String × getIdentityResponse Identity Profile)
    (c : Client) (ctx : Context) (w : World) :
    Outcome (Option Identity × Option Profile × Option GoError) × World :=
  let resp : getIdentityResponse Identity Profile := { Identity := none, Profile := none }
  match c.doGet L Unmarshal ctx "/identities/me" (some []) resp w with
  | (.panic msg, _, w1) => (.panic msg, w1)
  | (.ret (_, some err), _, w1) =>
    if isStatus err 412 then (.ret (none, none, none), w1) else (.ret (none, none, some err), w1)
  | (.ret (_, none), resp, w1) => (.ret (resp.Identity, resp.Profile, none), w1)

/-! ## utils.go -/

/-- The function `SessionFromRequest`. -/
def SessionFromRequest (L : Std) (req : Request) : String × Bool :=
  -- the statements after the query test
  let later : String × Bool :=
    let s := req.Header.Get "x-checkpoint-session"
    if s ≠ "" then (s, true)
    else
      match req.Cookie L "checkpoint.session" with
      | some c => if c.Value ≠ "" then (c.Value, true) else ("", false)
      | none => ("", false)
  match (req.URL.Query L).lookup "session" with
  | some session =>
    if session.length = 1 ∧ session.head? ≠ some "" then (session.head?.getD "", true)
    else later
  | none => later

end checkpoint

namespace middleware

open checkpoint

/-! ## middleware/middleware.go -/

/-- The constant `ctxKey`, the value 0 of the unexported type `ctxKeyType`. -/
def ctxKey : Key := Key.ctxKeyType 0

/-- The function `SessionFromContext`. -/
def SessionFromContext (ctx : Context) : String × Bool :=
  match Value ctx ctxKey with
  | .string v => if v ≠ "" then (v, true) else ("", false)
  | _ => ("", false)

/-- The function `ContextWithSession`. -/
def ContextWithSession (ctx : Context) (session : String) : Context :=
  if session ≠ "" then WithValue ctx ctxKey (.string session)
  else WithValue ctx ctxKey .nil

/-- The function `New`: the handler that wraps `next`. A handler is a
function of the response writer and the request. -/
def New {W R : Type} (L : Std) (_client : Client) (next : W → Request → R) : W → Request → R :=
  fun w req =>
    match SessionFromRequest L req with
    | (s, true) => next w (req.WithContext (ContextWithSession req.Context s))
    | (_, false) => next w req

end middleware

/-! ## Sample data for the concrete instances -/

namespace checkpoint

/-- The URL of the identity endpoint on `example.com`. -/
def sampleURL : URL :=
  { Scheme := "http", Host := "example.com", Path := "/api/checkpoint/v1/identities/me",
    RawQuery := "" }

/-- The request the client sends to that endpoint without a session. -/
def sampleRequest : Request :=
  { Method := "GET", URL := sampleURL,
    Header := Header.empty.Set "Accept" "application/json", ctx := Background }

/-- A response with the given status code, status text, content type and
body reference; the content length is unknown (-1). -/
def sampleResponse (code : Int) (status contentType : String) (body : Option Nat) : Response :=
  { StatusCode := code, Status := status,
    Header := if contentType = "" then Header.empty
      else Header.empty.Set "Content-Type" contentType,
    ContentLength := -1, Body := body }

/-- A world in which every reference leads to a fresh reader that delivers
`data` and then ends with `err`. -/
def sampleWorld (data : String) (err : Option String) : World :=
  { readers := fun _ => { data := data, err := err, reads := 0, closes := 0 }, log := [] }

/-- The results of the library parsers on the inputs used below, as
`net/url` and `net/http` give them; any other input is treated as rejected
or empty. -/
def sampleStd : Std :=
  { ParseURL := fun s =>
      if s = "http://example.com/api/checkpoint/v1/identities/me" then .ok sampleURL
      else if s = "//example.com/api/checkpoint/v1/identities/me" then
        .ok { sampleURL with Scheme := "" }
      else if s = "http://example.com/api/checkpoint/v1/a%20b" then
        .ok { sampleURL with Path := "/api/checkpoint/v1/a b" }
      else .error "parse error"
    ParseQuery := fun s =>
      if s = "session=q1" then [("session", ["q1"])]
      else if s = "session=" then [("session", [""])]
      else if s = "session=q1&session=q2" then [("session", ["q1", "q2"])]
      else []
    readCookies := fun lines =>
      if lines = ["checkpoint.session=c1"] then [{ Name := "checkpoint.session", Value := "c1" }]
      else [] }

/-- A client of `example.com` whose transport answers every request with
`resp`, leaving the world as it is. -/
def sampleClient (scheme session : String) (resp : Response) : Client :=
  { hc := fun _ w => (.ok resp, w), scheme := scheme, host := "example.com",
    session := session }

/-- A decoder for a target of type `String`: stores the bytes, and rejects
the empty input. -/
def sampleUnmarshal (b : String) (out : String) : Option String × String :=
  if b = "" then (some "unexpected end of JSON input", out) else (none, b)

/-- A decoder for the identity envelope with `Identity = Profile = String`
that reads every non-empty input as identity `u1` with profile `Ann`. -/
def sampleDecode (b : String) (out : getIdentityResponse String String) :
    Option String × getIdentityResponse String String :=
  if b = "" then (some "unexpected end of JSON input", out)
  else (none, { Identity := some "u1", Profile := some "Ann" })

/-- An `Error` whose body is 501 bytes long. -/
def longBodyError : Error :=
  { Req := sampleRequest,
    Resp := sampleResponse 500 "500 Internal Server Error" "" (some 0),
    Body := String.mk (List.replicate 501 'a'),
    Message := "Checkpoint" }

/-- An inbound request with the given raw query, value of the header
`x-checkpoint-session` and `Cookie` header line; an empty string leaves the
header out. -/
def inboundRequest (rawQuery session cookie : String) : Request :=
  let h := Header.empty
  let h := if session = "" then h else h.Set "x-checkpoint-session" session
  let h := if cookie = "" then h else h.Set "Cookie" cookie
  { Method := "GET", URL := { Scheme := "", Host := "", Path := "/", RawQuery := rawQuery },
    Header := h, ctx := Background }

end checkpoint

/-! ## Theorems: errors.go -/

namespace checkpoint

/-- For a status outside 200..299 `errorFromResponse` returns a `*Error`
that holds the request and the response. -/
theorem errorFromResponse_builds_error (req : Request) (resp : Response) (message : String)
    (format : List Arg) (w : World)
    (h : ¬ (200 ≤ resp.StatusCode ∧ resp.StatusCode ≤ 299)) :
    ∃ e : Error, (errorFromResponse req resp message format w).1 = (some (.status e), true) ∧
      e.Req = req ∧ e.Resp = resp := by
  have h' : ¬ (resp.StatusCode ≥ 200 ∧ resp.StatusCode ≤ 299) := h
  simp only [errorFromResponse, if_neg h']
  exact ⟨_, rfl, rfl, rfl⟩

/-- C1. `errorFromResponse` returns `(nil, false)` exactly for the status
codes 200..299; for every other status code it returns `(e, true)` with `e` a
`*Error` whose `Req` and `Resp` are the request and response given. An error
is therefore never returned for a 2xx response. -/
theorem errorFromResponse_classifies (req : Request) (resp : Response) (message : String)
    (format : List Arg) (w : World) :
    ((errorFromResponse req resp message format w).1 = (none, false) ↔
        (200 ≤ resp.StatusCode ∧ resp.StatusCode ≤ 299)) ∧
    (¬ (200 ≤ resp.StatusCode ∧ resp.StatusCode ≤ 299) →
      ∃ e : Error, (errorFromResponse req resp message format w).1 = (some (.status e), true) ∧
        e.Req = req ∧ e.Resp = resp) ∧
    (∀ err, (errorFromResponse req resp message format w).1.1 = some err →
      ¬ (200 ≤ resp.StatusCode ∧ resp.StatusCode ≤ 299)) := by
  by_cases h : resp.StatusCode ≥ 200 ∧ resp.StatusCode ≤ 299
  · simp [errorFromResponse, h]
  · have h' : ¬ (200 ≤ resp.StatusCode ∧ resp.StatusCode ≤ 299) := h
    refine ⟨?_, ?_, ?_⟩
    · simp only [errorFromResponse, if_neg h]
      simp [h']
    · intro _
      simp only [errorFromResponse, if_neg h]
      exact ⟨_, rfl, rfl, rfl⟩
    · intro _ _
      exact h'

/-- C1 at the status codes 199, 200, 299 and 300 of an otherwise fixed response. -/
theorem errorFromResponse_classifies_witness :
    (errorFromResponse sampleRequest (sampleResponse 200 "200 OK" "" (some 0)) "Checkpoint" []
        (sampleWorld "x" none)).1 = (none, false) ∧
    (errorFromResponse sampleRequest (sampleResponse 299 "299" "" (some 0)) "Checkpoint" []
        (sampleWorld "x" none)).1 = (none, false) ∧
    (∃ e : Error,
      (errorFromResponse sampleRequest (sampleResponse 199 "199" "" (some 0)) "Checkpoint" []
        (sampleWorld "x" none)).1 = (some (.status e), true) ∧
        e.Req = sampleRequest ∧ e.Resp = sampleResponse 199 "199" "" (some 0)) ∧
    (∃ e : Error,
      (errorFromResponse sampleRequest (sampleResponse 300 "300" "" (some 0)) "Checkpoint" []
        (sampleWorld "x" none)).1 = (some (.status e), true) ∧
        e.Req = sampleRequest ∧ e.Resp = sampleResponse 300 "300" "" (some 0)) :=
  ⟨(errorFromResponse_classifies _ _ _ _ _).1.2 (by decide),
   (errorFromResponse_classifies _ _ _ _ _).1.2 (by decide),
   (errorFromResponse_classifies _ _ _ _ _).2.1 (by decide),
   (errorFromResponse_classifies _ _ _ _ _).2.1 (by decide)⟩

end checkpoint

namespace checkpoint

/-- C4 (the code at a failing input). For an `Error` whose body is 501 bytes
long, `Error()` ends with the whole body: all 501 bytes appear and no marker
of omitted bytes follows. -/
theorem Error_Error_long_body :
    longBodyError.Body.length = 501 ∧
    longBodyError.Error =
      "Checkpoint: Request [GET http://example.com/api/checkpoint/v1/identities/me] " ++
      "failed with status 500 (500 Internal Server Error): " ++ longBodyError.Body := by
  constructor
  · show (List.replicate 501 'a').length = 501
    exact List.length_replicate 501 'a'
  · show _ ++ longBodyError.Body = _ ++ longBodyError.Body
    congr 1

/-- C5. When `ContentLength` is 0, `decodeResponseAsJSON` returns no error,
and the world (hence the body reader) and the target are the ones it was
given, whatever the header and the body are. -/
theorem decodeResponseAsJSON_zero_length {T : Type} (Unmarshal : String → T → Option String × T)
    (resp : Response) (body : Option Nat) (out : T) (w : World)
    (h : resp.ContentLength = 0) :
    decodeResponseAsJSON Unmarshal resp body out w = (.ret none, out, w) := by
  simp [decodeResponseAsJSON, h]

/-- C5 at a response of length 0 without a content type, with a content type
that does not parse and with one that is not JSON, over a body whose reader
would fail. -/
theorem decodeResponseAsJSON_zero_length_witness :
    decodeResponseAsJSON sampleUnmarshal
        { sampleResponse 200 "200 OK" "" (some 0) with ContentLength := 0 } (some 0) "old"
        (sampleWorld "not json" (some "boom")) =
      (.ret none, "old", sampleWorld "not json" (some "boom")) ∧
    decodeResponseAsJSON sampleUnmarshal
        { sampleResponse 200 "200 OK" "text/" (some 0) with ContentLength := 0 } (some 0) "old"
        (sampleWorld "not json" (some "boom")) =
      (.ret none, "old", sampleWorld "not json" (some "boom")) ∧
    decodeResponseAsJSON sampleUnmarshal
        { sampleResponse 200 "200 OK" "text/html" none with ContentLength := 0 } none "old"
        (sampleWorld "not json" (some "boom")) =
      (.ret none, "old", sampleWorld "not json" (some "boom")) :=
  ⟨decodeResponseAsJSON_zero_length _ _ _ _ _ rfl,
   decodeResponseAsJSON_zero_length _ _ _ _ _ rfl,
   decodeResponseAsJSON_zero_length _ _ _ _ _ rfl⟩

/-- A header without an entry for a key gives the empty string for it. -/
theorem Header.Get_of_not_Has (h : Header) (key : String) (hk : h.Has key = false) :
    h.Get key = "" := by
  unfold Header.Has at hk
  unfold Header.Get
  cases hl : h.entries.lookup (CanonicalMIMEHeaderKey key) with
  | none => rfl
  | some v => simp [hl] at hk

/-- C6. When `ContentLength` is not 0, `decodeResponseAsJSON` checks the
content type first. It fails, with the world (hence the body reader) and the
target unchanged, when the `Content-Type` header is absent or empty, when the
header does not parse as a media type, and when the media type parsed is not
`application/json`; in the last case the message carries the media type
received. Parameters play no part: `application/json; charset=utf-8` parses to
`application/json`, and whenever the header parses to `application/json` the
body is read to the end and decoded. -/
theorem decodeResponseAsJSON_content_type {T : Type}
    (Unmarshal : String → T → Option String × T)
    (resp : Response) (body : Option Nat) (out : T) (w : World)
    (h : resp.ContentLength ≠ 0) :
    ((resp.Header.Has "Content-Type" = false ∨ resp.Header.Get "Content-Type" = "") →
      decodeResponseAsJSON Unmarshal resp body out w =
        (.ret (some (.lib "expected response to be JSON, received bytes")), out, w)) ∧
    (∀ mediaType err, resp.Header.Get "Content-Type" ≠ "" →
      ParseMediaType (resp.Header.Get "Content-Type") = (mediaType, some err) →
      decodeResponseAsJSON Unmarshal resp body out w =
        (.ret (some (.wrap ("invalid content type " ++ Quote (resp.Header.Get "Content-Type")
          ++ ": " ++ err) err)), out, w)) ∧
    (∀ mediaType, resp.Header.Get "Content-Type" ≠ "" →
      ParseMediaType (resp.Header.Get "Content-Type") = (mediaType, none) →
      mediaType ≠ "application/json" →
      decodeResponseAsJSON Unmarshal resp body out w =
        (.ret (some (.lib ("expected response to be JSON, got " ++ Quote mediaType))), out, w)) ∧
    ParseMediaType "application/json; charset=utf-8" = ("application/json", none) ∧
    (∀ r, resp.Header.Get "Content-Type" ≠ "" →
      ParseMediaType (resp.Header.Get "Content-Type") = ("application/json", none) →
      body = some r →
      (decodeResponseAsJSON Unmarshal resp body out w).2.2 = (w.ReadAll r).2 ∧
      (((decodeResponseAsJSON Unmarshal resp body out w).2.2).readers r).reads =
        (w.readers r).reads + 1 ∧
      (∀ msg, (w.readers r).err = some msg →
        (decodeResponseAsJSON Unmarshal resp body out w).1 =
          .ret (some (.wrap ("could not read entire response: " ++ msg) msg)) ∧
        (decodeResponseAsJSON Unmarshal resp body out w).2.1 = out) ∧
      ((w.readers r).err = none →
        (decodeResponseAsJSON Unmarshal resp body out w).2.1 =
          (Unmarshal (w.readers r).data out).2 ∧
        (decodeResponseAsJSON Unmarshal resp body out w).1 =
          match (Unmarshal (w.readers r).data out).1 with
          | some msg => .ret (some (.wrap ("could not decode response JSON: " ++ msg) msg))
          | none => .ret none)) := by
  refine ⟨?_, ?_, ?_, by decide, ?_⟩
  · intro hct
    have hget : resp.Header.Get "Content-Type" = "" := by
      rcases hct with hct | hct
      · exact Header.Get_of_not_Has _ _ hct
      · exact hct
    simp [decodeResponseAsJSON, h, hget]
  · intro mediaType err hne hp
    simp [decodeResponseAsJSON, h, hne, hp]
  · intro mediaType hne hp hmt
    simp [decodeResponseAsJSON, h, hne, hp, hmt]
  · intro r hne hp hb
    subst hb
    have hd : decodeResponseAsJSON Unmarshal resp (some r) out w =
        match (w.readers r).err with
        | some msg =>
          (.ret (some (.wrap ("could not read entire response: " ++ msg) msg)), out,
            (w.ReadAll r).2)
        | none =>
          match Unmarshal (w.readers r).data out with
          | (some msg, out1) =>
            (.ret (some (.wrap ("could not decode response JSON: " ++ msg) msg)), out1,
              (w.ReadAll r).2)
          | (none, out1) => (.ret none, out1, (w.ReadAll r).2) := by
      simp only [decodeResponseAsJSON, if_neg h, if_neg hne, hp, World.ReadAll]
      simp
    rw [hd]
    cases he : (w.readers r).err with
    | some msg =>
      simp [World.ReadAll]
    | none =>
      rcases hu : Unmarshal (w.readers r).data out with ⟨e, out1⟩
      cases e <;> simp [World.ReadAll]

end checkpoint

namespace checkpoint

/-- C6 at a 200 response without a content type, with the content type `text/`
that does not parse, with the content type `text/html`, and with
`application/json; charset=utf-8` over a readable body. -/
theorem decodeResponseAsJSON_content_type_witness :
    decodeResponseAsJSON sampleUnmarshal (sampleResponse 200 "200 OK" "" (some 0)) (some 0)
        "old" (sampleWorld "new" none) =
      (.ret (some (.lib "expected response to be JSON, received bytes")), "old",
        sampleWorld "new" none) ∧
    decodeResponseAsJSON sampleUnmarshal (sampleResponse 200 "200 OK" "text/" (some 0)) (some 0)
        "old" (sampleWorld "new" none) =
      (.ret (some (.wrap ("invalid content type " ++ Quote "text/" ++ ": " ++
        "mime: expected token after slash") "mime: expected token after slash")), "old",
        sampleWorld "new" none) ∧
    decodeResponseAsJSON sampleUnmarshal (sampleResponse 200 "200 OK" "text/html" (some 0))
        (some 0) "old" (sampleWorld "new" none) =
      (.ret (some (.lib ("expected response to be JSON, got " ++ Quote "text/html"))), "old",
        sampleWorld "new" none) ∧
    (((decodeResponseAsJSON sampleUnmarshal
        (sampleResponse 200 "200 OK" "application/json; charset=utf-8" (some 0)) (some 0) "old"
        (sampleWorld "new" none)).2.2).readers 0).reads = 0 + 1 ∧
    (decodeResponseAsJSON sampleUnmarshal
        (sampleResponse 200 "200 OK" "application/json; charset=utf-8" (some 0)) (some 0) "old"
        (sampleWorld "new" none)).2.1 = "new" :=
  ⟨(decodeResponseAsJSON_content_type sampleUnmarshal (sampleResponse 200 "200 OK" "" (some 0))
      (some 0) "old" (sampleWorld "new" none) (by decide)).1 (Or.inl (by decide)),
   (decodeResponseAsJSON_content_type sampleUnmarshal
      (sampleResponse 200 "200 OK" "text/" (some 0)) (some 0) "old" (sampleWorld "new" none)
      (by decide)).2.1 "" "mime: expected token after slash" (by decide) (by decide),
   (decodeResponseAsJSON_content_type sampleUnmarshal
      (sampleResponse 200 "200 OK" "text/html" (some 0)) (some 0) "old" (sampleWorld "new" none)
      (by decide)).2.2.1 "text/html" (by decide) (by decide) (by decide),
   ((decodeResponseAsJSON_content_type sampleUnmarshal
      (sampleResponse 200 "200 OK" "application/json; charset=utf-8" (some 0)) (some 0) "old"
      (sampleWorld "new" none) (by decide)).2.2.2.2 0 (by decide) (by decide) rfl).2.1,
   (((decodeResponseAsJSON_content_type sampleUnmarshal
      (sampleResponse 200 "200 OK" "application/json; charset=utf-8" (some 0)) (some 0) "old"
      (sampleWorld "new" none) (by decide)).2.2.2.2 0 (by decide) (by decide) rfl).2.2.2
        rfl).1⟩

/-- C10 (counterexample). For a 500 response without a body (`resp.Body` is
nil) the error returned has the empty string as `Body`, not the marker
`[no data in response]`. -/
theorem errorFromResponse_nil_body_counterexample :
    (errorFromResponse sampleRequest (sampleResponse 500 "500 Internal Server Error" "" none)
        "Checkpoint" [] (sampleWorld "" none)).1 =
      (some (.status { Req := sampleRequest,
                       Resp := sampleResponse 500 "500 Internal Server Error" "" none,
                       Body := "", Message := "Checkpoint" }), true) ∧
    ("" : String) ≠ "[no data in response]" := by
  constructor
  · rfl
  · decide

/-- C10 (amended). For a status code outside 200..299 the `Body` of the
error built by `errorFromResponse` is: the message that embeds the read error
when reading the body fails; the bytes read when reading succeeds and gives
at least one byte; the marker `[no data in response]` when reading succeeds
and gives no byte; the empty string when the response has no body
(`resp.Body` is nil). `Message` is `fmt.Sprintf` of the message and the
arguments, which is `Checkpoint` for the message `Checkpoint` without
arguments. -/
theorem errorFromResponse_body (req : Request) (resp : Response) (message : String)
    (format : List Arg) (w : World)
    (h : ¬ (200 ≤ resp.StatusCode ∧ resp.StatusCode ≤ 299)) :
    ∃ e : Error, (errorFromResponse req resp message format w).1 = (some (.status e), true) ∧
      e.Message = Sprintf message format ∧
      Sprintf "Checkpoint" [] = "Checkpoint" ∧
      (resp.Body = none → e.Body = "") ∧
      (∀ r, resp.Body = some r →
        (∀ msg, (w.readers r).err = some msg →
          e.Body = "[error reading response body: " ++ msg ++ "]") ∧
        ((w.readers r).err = none → 0 < (w.readers r).data.length →
          e.Body = (w.readers r).data) ∧
        ((w.readers r).err = none → (w.readers r).data.length = 0 →
          e.Body = "[no data in response]")) := by
  have h' : ¬ (resp.StatusCode ≥ 200 ∧ resp.StatusCode ≤ 299) := h
  simp only [errorFromResponse, if_neg h']
  refine ⟨_, rfl, rfl, by decide, ?_, ?_⟩
  · intro hb
    simp [hb]
  · intro r hb
    simp only [hb, World.ReadAll]
    refine ⟨?_, ?_, ?_⟩
    · intro msg he
      simp [he]
    · intro he hl
      simp [he, hl]
    · intro he hl
      simp [he, hl]

/-- C10 (amended) at a 500 response whose body is `boom`, is empty, and fails
to be read. -/
theorem errorFromResponse_body_witness :
    (∃ e : Error,
      (errorFromResponse sampleRequest
        (sampleResponse 500 "500 Internal Server Error" "" (some 0)) "Checkpoint" []
        (sampleWorld "boom" none)).1 = (some (.status e), true) ∧
      e.Message = "Checkpoint" ∧ e.Body = "boom") ∧
    (∃ e : Error,
      (errorFromResponse sampleRequest
        (sampleResponse 500 "500 Internal Server Error" "" (some 0)) "Checkpoint" []
        (sampleWorld "" none)).1 = (some (.status e), true) ∧
      e.Body = "[no data in response]") ∧
    (∃ e : Error,
      (errorFromResponse sampleRequest
        (sampleResponse 500 "500 Internal Server Error" "" (some 0)) "Checkpoint" []
        (sampleWorld "partial" (some "unexpected EOF"))).1 = (some (.status e), true) ∧
      e.Body = "[error reading response body: unexpected EOF]") := by
  refine ⟨?_, ?_, ?_⟩
  · obtain ⟨e, he, hm, hs, _, hb⟩ := errorFromResponse_body sampleRequest
      (sampleResponse 500 "500 Internal Server Error" "" (some 0)) "Checkpoint" []
      (sampleWorld "boom" none) (by decide)
    exact ⟨e, he, hm.trans hs, (hb 0 rfl).2.1 rfl (by decide)⟩
  · obtain ⟨e, he, _, _, _, hb⟩ := errorFromResponse_body sampleRequest
      (sampleResponse 500 "500 Internal Server Error" "" (some 0)) "Checkpoint" []
      (sampleWorld "" none) (by decide)
    exact ⟨e, he, (hb 0 rfl).2.2 rfl (by decide)⟩
  · obtain ⟨e, he, _, _, _, hb⟩ := errorFromResponse_body sampleRequest
      (sampleResponse 500 "500 Internal Server Error" "" (some 0)) "Checkpoint" []
      (sampleWorld "partial" (some "unexpected EOF"))  (by decide)
    exact ⟨e, he, (hb 0 rfl).1 _ rfl⟩

end checkpoint

/-! ## Theorems: utils.go and the middleware -/

namespace checkpoint

/-- Without a `session` query parameter that has exactly one value, not
empty, `SessionFromRequest` is decided by the header and the cookie. -/
theorem SessionFromRequest_without_query (L : Std) (req : Request)
    (hq : ¬ ∃ q, (req.URL.Query L).lookup "session" = some [q] ∧ q ≠ "") :
    SessionFromRequest L req =
      if req.Header.Get "x-checkpoint-session" ≠ "" then
        (req.Header.Get "x-checkpoint-session", true)
      else
        match req.Cookie L "checkpoint.session" with
        | some c => if c.Value ≠ "" then (c.Value, true) else ("", false)
        | none => ("", false) := by
  unfold SessionFromRequest
  simp only []
  cases hl : (req.URL.Query L).lookup "session" with
  | none => rfl
  | some session =>
    match session, hl with
    | [], _ => simp
    | [q], hl =>
      have : q = "" := by
        by_contra hne
        exact hq ⟨q, hl, hne⟩
      simp [this]
    | _ :: _ :: _, _ => simp

/-- C2. `SessionFromRequest` returns the first match in the order query,
header, cookie: the value of the query parameter `session` when it has exactly
one value and that value is not empty; otherwise the value of the header
`x-checkpoint-session` when it is not empty; otherwise the value of the cookie
`checkpoint.session` when the cookie is present and its value is not empty;
otherwise `("", false)`. A `session` parameter that is empty or has several
values does not block the later sources, and the flag returned is true exactly
when the token returned is not empty. -/
theorem SessionFromRequest_precedence (L : Std) (req : Request) :
    (∀ q, (req.URL.Query L).lookup "session" = some [q] → q ≠ "" →
      SessionFromRequest L req = (q, true)) ∧
    ((¬ ∃ q, (req.URL.Query L).lookup "session" = some [q] ∧ q ≠ "") →
      (req.Header.Get "x-checkpoint-session" ≠ "" →
        SessionFromRequest L req = (req.Header.Get "x-checkpoint-session", true)) ∧
      (req.Header.Get "x-checkpoint-session" = "" →
        (∀ c, req.Cookie L "checkpoint.session" = some c → c.Value ≠ "" →
          SessionFromRequest L req = (c.Value, true)) ∧
        (∀ c, req.Cookie L "checkpoint.session" = some c → c.Value = "" →
          SessionFromRequest L req = ("", false)) ∧
        (req.Cookie L "checkpoint.session" = none →
          SessionFromRequest L req = ("", false)))) ∧
    ((SessionFromRequest L req).2 = true ↔ (SessionFromRequest L req).1 ≠ "") := by
  refine ⟨?_, ?_, ?_⟩
  · intro q hq hne
    simp [SessionFromRequest, hq, hne]
  · intro hq
    rw [SessionFromRequest_without_query L req hq]
    refine ⟨?_, ?_⟩
    · intro hh
      simp [hh]
    · intro hh
      refine ⟨?_, ?_, ?_⟩
      · intro c hc hv
        simp [hh, hc, hv]
      · intro c hc hv
        simp [hh, hc, hv]
      · intro hc
        simp [hh, hc]
  · by_cases hq : ∃ q, (req.URL.Query L).lookup "session" = some [q] ∧ q ≠ ""
    · obtain ⟨q, hq, hne⟩ := hq
      simp [SessionFromRequest, hq, hne]
    · rw [SessionFromRequest_without_query L req hq]
      by_cases hh : req.Header.Get "x-checkpoint-session" = ""
      · cases hc : req.Cookie L "checkpoint.session" with
        | none => simp [hh]
        | some c =>
          by_cases hv : c.Value = ""
          · simp [hh, hv]
          · simp [hh, hv]
      · simp [hh]

end checkpoint

namespace checkpoint

/-- C2 at requests with all three sources set, with header and cookie, with
the cookie alone, with no source, with an empty `session` parameter next to a
header, and with two `session` values next to a cookie. -/
theorem SessionFromRequest_precedence_witness :
    SessionFromRequest sampleStd (inboundRequest "session=q1" "h1" "checkpoint.session=c1") =
      ("q1", true) ∧
    SessionFromRequest sampleStd (inboundRequest "" "h1" "checkpoint.session=c1") =
      ("h1", true) ∧
    SessionFromRequest sampleStd (inboundRequest "" "" "checkpoint.session=c1") =
      ("c1", true) ∧
    SessionFromRequest sampleStd (inboundRequest "" "" "") = ("", false) ∧
    SessionFromRequest sampleStd (inboundRequest "session=" "h1" "") = ("h1", true) ∧
    SessionFromRequest sampleStd
      (inboundRequest "session=q1&session=q2" "" "checkpoint.session=c1") = ("c1", true) := by
  have none_of : ∀ (req : Request) (v : Option (List String)),
      (req.URL.Query sampleStd).lookup "session" = v → (∀ q, v = some [q] → q = "") →
      ¬ ∃ q, (req.URL.Query sampleStd).lookup "session" = some [q] ∧ q ≠ "" := by
    rintro req v hv hall ⟨q, hq, hne⟩
    exact hne (hall q (hv ▸ hq))
  refine ⟨?_, ?_, ?_, ?_, ?_, ?_⟩
  · exact (SessionFromRequest_precedence sampleStd _).1 "q1" (by decide) (by decide)
  · exact ((SessionFromRequest_precedence sampleStd _).2.1
      (none_of _ none (by decide) (by intro q h; cases h))).1 (by decide)
  · exact (((SessionFromRequest_precedence sampleStd _).2.1
      (none_of _ none (by decide) (by intro q h; cases h))).2 (by decide)).1
        { Name := "checkpoint.session", Value := "c1" } (by decide) (by decide)
  · exact (((SessionFromRequest_precedence sampleStd _).2.1
      (none_of _ none (by decide) (by intro q h; cases h))).2 (by decide)).2.2 (by decide)
  · exact ((SessionFromRequest_precedence sampleStd _).2.1
      (none_of _ (some [""]) (by decide) (by intro q h; cases h; rfl))).1 (by decide)
  · exact (((SessionFromRequest_precedence sampleStd _).2.1
      (none_of _ (some ["q1", "q2"]) (by decide) (by intro q h; cases h))).2 (by decide)).1
        { Name := "checkpoint.session", Value := "c1" } (by decide) (by decide)

end checkpoint

namespace middleware

open checkpoint

/-- A context without a binding of `ctxKey` has no value for it. -/
theorem Value_of_unbound (ctx : Context) (h : ∀ kv ∈ ctx, kv.1 ≠ ctxKey) :
    Value ctx ctxKey = Any.nil := by
  unfold Value
  induction ctx with
  | nil => rfl
  | cons kv rest ih =>
    obtain ⟨k, v⟩ := kv
    have hk : k ≠ ctxKey := h (k, v) (List.mem_cons_self _ _)
    have hk' : (ctxKey == k) = false := by
      simp only [beq_eq_false_iff_ne, ne_eq]
      exact fun e => hk e.symm
    rw [List.lookup_cons, hk']
    exact ih (fun kv hkv => h kv (List.mem_cons_of_mem _ hkv))

/-- C8. Reading back a context made by `ContextWithSession`: a token that is
not empty is read back as `(s, true)`; the empty token is read back as
`("", false)`, also over a context that carried a session; a context without
a binding of the key, as every context on which `ContextWithSession` was not
applied, reads `("", false)`. The handler built by `New`, given a request whose
only session source is the header `x-checkpoint-session: abc123`, calls the
next handler with a request whose context reads back `("abc123", true)`. -/
theorem session_context_roundtrip :
    (∀ (ctx : Context) (s : String), s ≠ "" →
      SessionFromContext (ContextWithSession ctx s) = (s, true)) ∧
    (∀ ctx : Context, SessionFromContext (ContextWithSession ctx "") = ("", false)) ∧
    (∀ (ctx : Context) (s : String),
      SessionFromContext (ContextWithSession (ContextWithSession ctx s) "") = ("", false)) ∧
    (∀ ctx : Context, (∀ kv ∈ ctx, kv.1 ≠ ctxKey) → SessionFromContext ctx = ("", false)) ∧
    (∀ (W R : Type) (L : Std) (client : Client) (next : W → Request → R) (w : W)
        (req : Request),
      (req.URL.Query L).lookup "session" = none →
      req.Header.Get "x-checkpoint-session" = "abc123" →
      req.Cookie L "checkpoint.session" = none →
      New L client next w req =
          next w (req.WithContext (ContextWithSession req.Context "abc123")) ∧
        SessionFromContext
          (req.WithContext (ContextWithSession req.Context "abc123")).Context =
            ("abc123", true)) := by
  have h1 : ∀ (ctx : Context) (s : String), s ≠ "" →
      SessionFromContext (ContextWithSession ctx s) = (s, true) := by
    intro ctx s hs
    simp [SessionFromContext, ContextWithSession, hs, WithValue, Value, List.lookup]
  have h2 : ∀ ctx : Context, SessionFromContext (ContextWithSession ctx "") = ("", false) := by
    intro ctx
    simp [SessionFromContext, ContextWithSession, WithValue, Value, List.lookup]
  refine ⟨h1, h2, fun ctx s => h2 _, ?_, ?_⟩
  · intro ctx h
    simp [SessionFromContext, Value_of_unbound ctx h]
  · intro W R L client next w req hq hh hc
    have hs : SessionFromRequest L req = ("abc123", true) := by
      rw [SessionFromRequest_without_query L req
        (by rintro ⟨q, hq', _⟩; rw [hq] at hq'; cases hq'), hh]
      rw [if_pos (by decide)]
    refine ⟨?_, ?_⟩
    · simp [New, hs]
    · exact h1 req.Context "abc123" (by decide)

/-- C8 at the token `tok`, at a context that binds only a foreign key, and at
the request that carries only the header `x-checkpoint-session: abc123`. -/
theorem session_context_roundtrip_witness :
    SessionFromContext (ContextWithSession Background "tok") = ("tok", true) ∧
    SessionFromContext (ContextWithSession (ContextWithSession Background "tok") "") =
      ("", false) ∧
    SessionFromContext [(Key.foreign 7, Any.string "tok")] = ("", false) ∧
    New sampleStd (sampleClient "http" "" (sampleResponse 200 "200 OK" "" none))
        (fun (_ : Unit) (r : Request) => SessionFromContext r.Context) ()
        (inboundRequest "" "abc123" "") = ("abc123", true) := by
  refine ⟨session_context_roundtrip.1 Background "tok" (by decide),
    session_context_roundtrip.2.2.1 Background "tok",
    session_context_roundtrip.2.2.2.1 [(Key.foreign 7, Any.string "tok")] (by decide), ?_⟩
  have h := session_context_roundtrip.2.2.2.2 Unit (String × Bool) sampleStd
    (sampleClient "http" "" (sampleResponse 200 "200 OK" "" none))
    (fun (_ : Unit) (r : Request) => SessionFromContext r.Context) ()
    (inboundRequest "" "abc123" "") (by decide) (by decide) (by decide)
  rw [h.1]
  exact h.2

end middleware

/-! ## Theorems: client.go -/

namespace checkpoint

/-- Escaping leaves a string without bytes to escape as it is. -/
theorem escape_of_plain (s : String) (mode : encoding)
    (h : ∀ c ∈ s.data, shouldEscape c mode = false) : escape s mode = s := by
  have key : ∀ l : List Char, (∀ c ∈ l, shouldEscape c mode = false) →
      (l.map (escapeChar mode)).flatten = l := by
    intro l
    induction l with
    | nil => intro _; rfl
    | cons a rest ih =>
      intro hl
      have ha : shouldEscape a mode = false := hl a (List.mem_cons_self _ _)
      have hr := ih (fun c hc => hl c (List.mem_cons_of_mem _ hc))
      simp only [List.map_cons, List.flatten_cons, hr, escapeChar, ha]
      simp
  unfold escape
  rw [key s.data h]

/-- The URL string of a client with a scheme, for a host and a path without
bytes to escape and an empty query. -/
theorem formatURL_plain (c : Client) (path : String) (params : Option Values)
    (hp : params = none ∨ params = some [])
    (hs : c.scheme ≠ "")
    (hh : ∀ ch ∈ c.host.data, shouldEscape ch .encodeHost = false)
    (hpath : ∀ ch ∈ path.data, shouldEscape ch .encodePath = false) :
    c.formatURL path params = c.scheme ++ "://" ++ c.host ++ "/api/checkpoint/v1" ++ path := by
  have hfull : ∀ ch ∈ ("/api/checkpoint/v1" ++ path).data,
      shouldEscape ch .encodePath = false := by
    intro ch hch
    rw [String.data_append, List.mem_append] at hch
    rcases hch with hch | hch
    · revert ch
      decide
    · exact hpath ch hch
  have hne : ("/api/checkpoint/v1" ++ path) ≠ "*" := by
    intro e
    have := congrArg String.data e
    rw [String.data_append] at this
    have h0 := congrArg List.head? this
    simp at h0
  have hne2 : ("/api/checkpoint/v1" ++ path) ≠ "" := by
    intro e
    have := congrArg String.data e
    rw [String.data_append] at this
    have h0 := congrArg List.head? this
    simp at h0
  have hesc : URL.EscapedPath ⟨c.scheme, c.host, "/api/checkpoint/v1" ++ path, ""⟩ =
      "/api/checkpoint/v1" ++ path := by
    simp only [URL.EscapedPath, if_neg hne]
    exact escape_of_plain _ _ hfull
  have hhead : ("/api/checkpoint/v1" ++ path).data.head? = some '/' := by
    rw [String.data_append]
    rfl
  have hform : c.formatURL path params =
      URL.String ⟨c.scheme, c.host, "/api/checkpoint/v1" ++ path, ""⟩ := by
    rcases hp with hp | hp <;> subst hp <;> rfl
  rw [hform]
  unfold URL.String
  rw [hesc]
  simp only [hhead, ne_eq, hs, not_false_eq_true, true_or, if_true, hne2, or_true,
    not_true_eq_false, false_and, and_false, if_false]
  by_cases hhost : c.host = ""
  · simp [hhost, hs, String.append_assoc]
    rw [← String.append_assoc "://"]
    rfl
  · rw [escape_of_plain _ _ hh]
    simp [hhost, hs, String.append_assoc]

end checkpoint

namespace checkpoint

/-- The request that a successful `newRequest` returns. -/
theorem newRequest_ok (L : Std) (c : Client) (method path : String) (params : Option Values)
    (req : Request) (h : c.newRequest L method path params = .ok req) :
    L.ParseURL (c.formatURL path params) = .ok req.URL ∧
    req.Method = (if method = "" then "GET" else method) ∧
    req.ctx = Background ∧
    req.Header =
      if c.session ≠ "" then
        (Header.empty.Set "Accept" "application/json").Set "Cookie"
          ("checkpoint.session=" ++ c.session)
      else Header.empty.Set "Accept" "application/json" := by
  unfold Client.newRequest NewRequest at h
  simp only [] at h
  by_cases hv : validMethod (if method = "" then "GET" else method) = true
  · cases hp : L.ParseURL (c.formatURL path params) with
    | error msg => simp [hv, hp] at h
    | ok u =>
      simp only [hv, hp, not_true_eq_false, if_false] at h
      by_cases hs : c.session = ""
      · simp only [hs, ne_eq, not_true_eq_false, if_false] at h ⊢
        cases h
        exact ⟨rfl, rfl, rfl, rfl⟩
      · simp only [hs, ne_eq, not_false_eq_true, if_true] at h ⊢
        cases h
        exact ⟨rfl, rfl, rfl, rfl⟩
  · simp [hv] at h

/-- C9 (counterexample). A client with the empty scheme and a client asked
for the path `/a b`: `newRequest` succeeds, and the URL string it is created
from is `//example.com/api/checkpoint/v1/identities/me` in the first case and
`http://example.com/api/checkpoint/v1/a%20b` in the second, neither of which is
the scheme, `://`, the host, `/api/checkpoint/v1` and the path one after the
other. -/
theorem newRequest_url_counterexample :
    ((sampleClient "" "" (sampleResponse 200 "200 OK" "" none)).newRequest sampleStd "GET"
        "/identities/me" (some [])).toOption.isSome = true ∧
    (sampleClient "" "" (sampleResponse 200 "200 OK" "" none)).formatURL "/identities/me"
        (some []) = "//example.com/api/checkpoint/v1/identities/me" ∧
    (sampleClient "" "" (sampleResponse 200 "200 OK" "" none)).formatURL "/identities/me"
        (some []) ≠ "" ++ "://" ++ "example.com" ++ "/api/checkpoint/v1" ++ "/identities/me" ∧
    ((sampleClient "http" "" (sampleResponse 200 "200 OK" "" none)).newRequest sampleStd "GET"
        "/a b" (some [])).toOption.isSome = true ∧
    (sampleClient "http" "" (sampleResponse 200 "200 OK" "" none)).formatURL "/a b"
        (some []) = "http://example.com/api/checkpoint/v1/a%20b" ∧
    (sampleClient "http" "" (sampleResponse 200 "200 OK" "" none)).formatURL "/a b"
        (some []) ≠ "http" ++ "://" ++ "example.com" ++ "/api/checkpoint/v1" ++ "/a b" := by
  refine ⟨by decide, by decide, by decide, by decide, by decide, by decide⟩

/-- C9 (amended). When `newRequest` succeeds, the request carries the header
`Accept: application/json`; it carries a `Cookie` header exactly when the
session of the client is not empty, and the value is then `checkpoint.session=`
followed by the session; its URL is the parse of the string `formatURL`
returns, and for a scheme that is not empty, a host and a path without bytes
that `URL.String` escapes, and empty parameters, that string is the scheme,
`://`, the host, `/api/checkpoint/v1` and the path, without a query string. -/
theorem newRequest_headers_and_url (L : Std) (c : Client) (method path : String)
    (params : Option Values) (req : Request)
    (h : c.newRequest L method path params = .ok req) :
    req.Header.Values "Accept" = ["application/json"] ∧
    req.Header.Get "Accept" = "application/json" ∧
    (req.Header.Has "Cookie" = true ↔ c.session ≠ "") ∧
    (c.session ≠ "" →
      req.Header.Values "Cookie" = ["checkpoint.session=" ++ c.session] ∧
      req.Header.Get "Cookie" = "checkpoint.session=" ++ c.session) ∧
    L.ParseURL (c.formatURL path params) = .ok req.URL ∧
    ((params = none ∨ params = some []) → c.scheme ≠ "" →
      (∀ ch ∈ c.host.data, shouldEscape ch .encodeHost = false) →
      (∀ ch ∈ path.data, shouldEscape ch .encodePath = false) →
      c.formatURL path params =
        c.scheme ++ "://" ++ c.host ++ "/api/checkpoint/v1" ++ path) := by
  obtain ⟨hu, _, _, hh⟩ := newRequest_ok L c method path params req h
  have hA : CanonicalMIMEHeaderKey "Accept" = "Accept" := by decide
  have hC : CanonicalMIMEHeaderKey "Cookie" = "Cookie" := by decide
  have hAC : ("Accept" == "Cookie") = false := by decide
  have hCA : ("Cookie" == "Accept") = false := by decide
  refine ⟨?_, ?_, ?_, ?_, hu, ?_⟩
  · rw [hh]
    by_cases hs : c.session = "" <;>
      simp [hs, Header.Values, Header.Set, Header.empty, hA, hC, List.lookup, hAC, hCA]
  · rw [hh]
    by_cases hs : c.session = "" <;>
      simp [hs, Header.Get, Header.Set, Header.empty, hA, hC, List.lookup, hAC, hCA]
  · rw [hh]
    by_cases hs : c.session = "" <;>
      simp [hs, Header.Has, Header.Set, Header.empty, hA, hC, List.lookup, hAC, hCA]
  · intro hs
    rw [hh]
    simp [hs, Header.Values, Header.Get, Header.Set, Header.empty, hA, hC, List.lookup]
  · intro hp hs hhost hpath
    exact formatURL_plain c path params hp hs hhost hpath

/-- C9 (amended) at the client of `http://example.com` with the session
`tok` and at the same client without a session, for the path `/identities/me`. -/
theorem newRequest_headers_and_url_witness :
    (∃ req, (sampleClient "http" "tok" (sampleResponse 200 "200 OK" "" none)).newRequest
        sampleStd "GET" "/identities/me" (some []) = .ok req ∧
      req.Header.Get "Accept" = "application/json" ∧
      req.Header.Get "Cookie" = "checkpoint.session=tok" ∧
      req.URL = sampleURL) ∧
    (∃ req, (sampleClient "http" "" (sampleResponse 200 "200 OK" "" none)).newRequest
        sampleStd "GET" "/identities/me" (some []) = .ok req ∧
      req.Header.Get "Accept" = "application/json" ∧
      req.Header.Has "Cookie" = false) ∧
    (sampleClient "http" "" (sampleResponse 200 "200 OK" "" none)).formatURL "/identities/me"
      (some []) = "http://example.com/api/checkpoint/v1/identities/me" := by
  refine ⟨?_, ?_, ?_⟩
  · have hok : (sampleClient "http" "tok" (sampleResponse 200 "200 OK" "" none)).newRequest
        sampleStd "GET" "/identities/me" (some []) =
        .ok { sampleRequest with
          Header := sampleRequest.Header.Set "Cookie" "checkpoint.session=tok" } := by rfl
    have h := newRequest_headers_and_url _ _ _ _ _ _ hok
    exact ⟨_, hok, h.2.1, (h.2.2.2.1 (by decide)).2, rfl⟩
  · have hok : (sampleClient "http" "" (sampleResponse 200 "200 OK" "" none)).newRequest
        sampleStd "GET" "/identities/me" (some []) = .ok sampleRequest := by rfl
    have h := newRequest_headers_and_url _ _ _ _ _ _ hok
    refine ⟨_, hok, h.2.1, ?_⟩
    cases hc : sampleRequest.Header.Has "Cookie" with
    | false => rfl
    | true => exact absurd rfl (h.2.2.1.1 hc)
  · have hok : (sampleClient "http" "" (sampleResponse 200 "200 OK" "" none)).newRequest
        sampleStd "GET" "/identities/me" (some []) = .ok sampleRequest := by rfl
    exact (newRequest_headers_and_url _ _ _ _ _ _ hok).2.2.2.2.2 (Or.inr rfl) (by decide)
      (by decide) (by decide)

end checkpoint

namespace checkpoint

/-- Writing a log line leaves what `errorFromResponse` returns as it is. -/
theorem errorFromResponse_Infow (req : Request) (resp : Response) (message : String)
    (format : List Arg) (w : World) (msg url : String) (status : Int) :
    (errorFromResponse req resp message format (w.Infow msg url status)).1 =
      (errorFromResponse req resp message format w).1 := by
  unfold errorFromResponse
  by_cases h : resp.StatusCode ≥ 200 ∧ resp.StatusCode ≤ 299
  · simp [h]
  · simp only [if_neg h]
    cases resp.Body with
    | none => rfl
    | some r =>
      simp only [World.ReadAll, World.Infow]
      cases (w.readers r).err with
      | some m => rfl
      | none => by_cases hl : (w.readers r).data.length > 0 <;> simp [hl]

/-- What `doGet` returns once the transport has answered with a response. -/
theorem doGet_of_response {T : Type} (L : Std) (Unmarshal : String → T → Option String × T)
    (c : Client) (ctx : Context) (path : String) (params : Option Values) (output : T)
    (w w1 : World) (req : Request) (resp : Response)
    (hreq : c.newRequest L "GET" path params = .ok req)
    (hdo : c.hc (req.WithContext ctx) w = (.ok resp, w1)) :
    c.doGet L Unmarshal ctx path params output w =
      if 200 ≤ resp.StatusCode ∧ resp.StatusCode ≤ 299 then
        match decodeResponseAsJSON Unmarshal resp resp.Body output
            (w1.Infow req.Method req.URL.String resp.StatusCode) with
        | (.panic msg, out, w4) => (.panic msg, out, deferredClose resp w4)
        | (.ret (some err), out, w4) => (.ret (none, some err), out, deferredClose resp w4)
        | (.ret none, out, w4) => (.ret (some resp, none), out, deferredClose resp w4)
      else
        (.ret (some resp, (errorFromResponse req resp "Checkpoint" [] w1).1.1), output,
          deferredClose resp (errorFromResponse req resp "Checkpoint" []
            (w1.Infow req.Method req.URL.String resp.StatusCode)).2) := by
  unfold Client.doGet
  simp only [hreq, hdo, Client.checkResponse]
  by_cases h : resp.StatusCode ≥ 200 ∧ resp.StatusCode ≤ 299
  · have h' : 200 ≤ resp.StatusCode ∧ resp.StatusCode ≤ 299 := h
    have he : ∀ w0, errorFromResponse req resp "Checkpoint" [] w0 = ((none, false), w0) := by
      intro w0
      simp [errorFromResponse, h]
    simp only [he, if_pos h']
  · have h' : ¬ (200 ≤ resp.StatusCode ∧ resp.StatusCode ≤ 299) := h
    rw [if_neg h', ← errorFromResponse_Infow req resp "Checkpoint" [] w1 req.Method
      req.URL.String resp.StatusCode]
    simp only [errorFromResponse, if_neg h]

/-- The three ways `decodeResponseAsJSON` ends: it returns without touching
the world, it panics on a nil body, or it returns after reading the body to
the end. An error it returns is never a `*Error`. -/
theorem decodeResponseAsJSON_cases {T : Type} (Unmarshal : String → T → Option String × T)
    (resp : Response) (body : Option Nat) (out : T) (w : World) :
    (∃ eo out1, decodeResponseAsJSON Unmarshal resp body out w = (.ret eo, out1, w) ∧
      ∀ e, eo = some e → ∀ s, isStatus e s = false) ∨
    (body = none ∧ ∃ m, decodeResponseAsJSON Unmarshal resp body out w = (.panic m, out, w)) ∨
    (∃ r eo out1, body = some r ∧
      decodeResponseAsJSON Unmarshal resp body out w = (.ret eo, out1, (w.ReadAll r).2) ∧
      ∀ e, eo = some e → ∀ s, isStatus e s = false) := by
  by_cases h0 : resp.ContentLength = 0
  · left
    exact ⟨none, out, by simp [decodeResponseAsJSON, h0], by intro e he; cases he⟩
  by_cases h1 : resp.Header.Get "Content-Type" = ""
  · left
    exact ⟨some (.lib "expected response to be JSON, received bytes"), out,
      by simp [decodeResponseAsJSON, h0, h1], by intro e he; cases he; intro s; rfl⟩
  rcases hp : ParseMediaType (resp.Header.Get "Content-Type") with ⟨mt, perr⟩
  cases perr with
  | some err =>
    left
    exact ⟨some (.wrap ("invalid content type " ++ Quote (resp.Header.Get "Content-Type") ++
        ": " ++ err) err), out, by simp [decodeResponseAsJSON, h0, h1, hp],
      by intro e he; cases he; intro s; rfl⟩
  | none =>
    by_cases h2 : mt = "application/json"
    · cases body with
      | none =>
        right; left
        exact ⟨rfl, "runtime error: invalid memory address or nil pointer dereference",
          by simp [decodeResponseAsJSON, h0, h1, hp, h2]⟩
      | some r =>
        right; right
        cases he : (w.readers r).err with
        | some msg =>
          exact ⟨r, some (.wrap ("could not read entire response: " ++ msg) msg), out, rfl,
            by simp [decodeResponseAsJSON, h0, h1, hp, h2, World.ReadAll, he],
            by intro e he; cases he; intro s; rfl⟩
        | none =>
          rcases hu : Unmarshal (w.readers r).data out with ⟨ue, out1⟩
          cases ue with
          | some msg =>
            exact ⟨r, some (.wrap ("could not decode response JSON: " ++ msg) msg), out1, rfl,
              by simp [decodeResponseAsJSON, h0, h1, hp, h2, World.ReadAll, he, hu],
              by intro e he; cases he; intro s; rfl⟩
          | none =>
            exact ⟨r, none, out1, rfl,
              by simp [decodeResponseAsJSON, h0, h1, hp, h2, World.ReadAll, he, hu],
              by intro e he; cases he⟩
    · left
      exact ⟨some (.lib ("expected response to be JSON, got " ++ Quote mt)), out,
        by simp [decodeResponseAsJSON, h0, h1, hp, h2],
        by intro e he; cases he; intro s; rfl⟩

/-- Reading a body to the end closes no reader. -/
theorem ReadAll_closes (w : World) (r k : Nat) :
    (((w.ReadAll r).2).readers k).closes = (w.readers k).closes := by
  simp only [World.ReadAll]
  by_cases hk : k = r
  · simp [hk]
  · simp [hk]

/-- Closing the body of a response adds one close to its reader. -/
theorem deferredClose_closes (resp : Response) (w : World) (r : Nat) (hb : resp.Body = some r) :
    (((deferredClose resp w).readers r).closes) = (w.readers r).closes + 1 := by
  simp [deferredClose, hb, World.Close]

end checkpoint

namespace checkpoint

/-- The world after `errorFromResponse` has built an error from a response
with a body: the body is read to the end and closed. -/
theorem errorFromResponse_world (req : Request) (resp : Response) (message : String)
    (format : List Arg) (w : World) (r : Nat)
    (h : ¬ (200 ≤ resp.StatusCode ∧ resp.StatusCode ≤ 299)) (hb : resp.Body = some r) :
    (errorFromResponse req resp message format w).2 = deferredClose resp (w.ReadAll r).2 := by
  have h' : ¬ (resp.StatusCode ≥ 200 ∧ resp.StatusCode ≤ 299) := h
  simp only [errorFromResponse, if_neg h', hb, World.ReadAll]
  cases (w.readers r).err with
  | some m => rfl
  | none => by_cases hl : (w.readers r).data.length > 0 <;> simp [hl]

/-- C3. Once the transport has answered with a response: for status 412
`GetCurrentIdentity` returns `(nil, nil)` and `GetCurrentUser` returns
`(nil, nil, nil)`; for any other status outside 200..299 both return nil
results together with the `*Error` that `errorFromResponse` builds for the
response; for a status in 200..299 an error of `decodeResponseAsJSON` is
returned as it is, with nil results. -/
theorem GetCurrent_error_results {Identity Profile : Type} (L : Std)
    (Unmarshal : String → getIdentityResponse Identity Profile →
      Option String × getIdentityResponse Identity Profile)
    (c : Client) (ctx : Context) (w w1 : World) (req : Request) (resp : Response)
    (hreq : c.newRequest L "GET" "/identities/me" (some []) = .ok req)
    (hdo : c.hc (req.WithContext ctx) w = (.ok resp, w1)) :
    (resp.StatusCode = 412 →
      (c.GetCurrentIdentity L Unmarshal ctx w).1 = .ret (none, none) ∧
      (c.GetCurrentUser L Unmarshal ctx w).1 = .ret (none, none, none)) ∧
    (¬ (200 ≤ resp.StatusCode ∧ resp.StatusCode ≤ 299) → resp.StatusCode ≠ 412 →
      ∃ e : Error,
        (errorFromResponse req resp "Checkpoint" [] w1).1 = (some (.status e), true) ∧
        (c.GetCurrentIdentity L Unmarshal ctx w).1 = .ret (none, some (.status e)) ∧
        (c.GetCurrentUser L Unmarshal ctx w).1 = .ret (none, none, some (.status e))) ∧
    ((200 ≤ resp.StatusCode ∧ resp.StatusCode ≤ 299) →
      ∀ err,
        (decodeResponseAsJSON Unmarshal resp resp.Body { Identity := none, Profile := none }
          (w1.Infow req.Method req.URL.String resp.StatusCode)).1 = .ret (some err) →
        (c.GetCurrentIdentity L Unmarshal ctx w).1 = .ret (none, some err) ∧
        (c.GetCurrentUser L Unmarshal ctx w).1 = .ret (none, none, some err)) := by
  have hget := doGet_of_response L Unmarshal c ctx "/identities/me" (some [])
    ({ Identity := none, Profile := none } : getIdentityResponse Identity Profile)
    w w1 req resp hreq hdo
  have hnon : ¬ (200 ≤ resp.StatusCode ∧ resp.StatusCode ≤ 299) →
      ∃ e : Error,
        (errorFromResponse req resp "Checkpoint" [] w1).1 = (some (.status e), true) ∧
        e.Resp = resp := by
    intro h
    obtain ⟨e, he, _, hr⟩ := (errorFromResponse_builds_error req resp "Checkpoint" [] w1) h
    exact ⟨e, he, hr⟩
  refine ⟨?_, ?_, ?_⟩
  · intro h412
    have h : ¬ (200 ≤ resp.StatusCode ∧ resp.StatusCode ≤ 299) := by
      rw [h412]; decide
    obtain ⟨e, he, hr⟩ := hnon h
    unfold Client.GetCurrentIdentity Client.GetCurrentUser
    simp only [hget, if_neg h, he]
    simp [isStatus, hr, h412]
  · intro h hne
    obtain ⟨e, he, hr⟩ := hnon h
    refine ⟨e, he, ?_, ?_⟩
    · unfold Client.GetCurrentIdentity
      simp only [hget, if_neg h, he]
      simp [isStatus, hr, hne]
    · unfold Client.GetCurrentUser
      simp only [hget, if_neg h, he]
      simp [isStatus, hr, hne]
  · intro h err hd
    have hns : isStatus err 412 = false := by
      rcases decodeResponseAsJSON_cases Unmarshal resp resp.Body
          ({ Identity := none, Profile := none } : getIdentityResponse Identity Profile)
          (w1.Infow req.Method req.URL.String resp.StatusCode) with
        ⟨eo, out1, heq, hs⟩ | ⟨_, m, heq⟩ | ⟨r, eo, out1, _, heq, hs⟩
      · rw [heq] at hd
        cases hd
        exact hs err rfl 412
      · rw [heq] at hd
        cases hd
      · rw [heq] at hd
        cases hd
        exact hs err rfl 412
    rcases hdec : decodeResponseAsJSON Unmarshal resp resp.Body
        ({ Identity := none, Profile := none } : getIdentityResponse Identity Profile)
        (w1.Infow req.Method req.URL.String resp.StatusCode) with ⟨o, out1, w4⟩
    rw [hdec] at hd
    simp only at hd
    subst hd
    unfold Client.GetCurrentIdentity Client.GetCurrentUser
    simp only [hget, if_pos h, hdec]
    simp [hns]

end checkpoint

namespace checkpoint

/-- C3 at the client of `http://example.com` whose transport answers 412,
500 with the body `boom`, and 200 with the content type `text/html`. -/
theorem GetCurrent_error_results_witness :
    ((sampleClient "http" "" (sampleResponse 412 "412 Precondition Failed" "" (some 0))
        ).GetCurrentIdentity sampleStd sampleDecode Background (sampleWorld "" none)).1 =
      .ret (none, none) ∧
    ((sampleClient "http" "" (sampleResponse 412 "412 Precondition Failed" "" (some 0))
        ).GetCurrentUser sampleStd sampleDecode Background (sampleWorld "" none)).1 =
      .ret (none, none, none) ∧
    (∃ e : Error,
      (errorFromResponse sampleRequest
        (sampleResponse 500 "500 Internal Server Error" "" (some 0)) "Checkpoint" []
        (sampleWorld "boom" none)).1 = (some (.status e), true) ∧
      ((sampleClient "http" "" (sampleResponse 500 "500 Internal Server Error" "" (some 0))
        ).GetCurrentIdentity sampleStd sampleDecode Background (sampleWorld "boom" none)).1 =
        .ret (none, some (.status e))) ∧
    ((sampleClient "http" "" (sampleResponse 200 "200 OK" "text/html" (some 0))
        ).GetCurrentUser sampleStd sampleDecode Background (sampleWorld "boom" none)).1 =
      .ret (none, none,
        some (.lib ("expected response to be JSON, got " ++ Quote "text/html"))) := by
  refine ⟨?_, ?_, ?_, ?_⟩
  · exact ((GetCurrent_error_results sampleStd sampleDecode
      (sampleClient "http" "" (sampleResponse 412 "412 Precondition Failed" "" (some 0)))
      Background (sampleWorld "" none) (sampleWorld "" none) sampleRequest
      (sampleResponse 412 "412 Precondition Failed" "" (some 0)) rfl rfl).1 rfl).1
  · exact ((GetCurrent_error_results sampleStd sampleDecode
      (sampleClient "http" "" (sampleResponse 412 "412 Precondition Failed" "" (some 0)))
      Background (sampleWorld "" none) (sampleWorld "" none) sampleRequest
      (sampleResponse 412 "412 Precondition Failed" "" (some 0)) rfl rfl).1 rfl).2
  · obtain ⟨e, he, hi, _⟩ := (GetCurrent_error_results sampleStd sampleDecode
      (sampleClient "http" "" (sampleResponse 500 "500 Internal Server Error" "" (some 0)))
      Background (sampleWorld "boom" none) (sampleWorld "boom" none) sampleRequest
      (sampleResponse 500 "500 Internal Server Error" "" (some 0)) rfl rfl).2.1
      (by decide) (by decide)
    exact ⟨e, he, hi⟩
  · exact ((GetCurrent_error_results sampleStd sampleDecode
      (sampleClient "http" "" (sampleResponse 200 "200 OK" "text/html" (some 0)))
      Background (sampleWorld "boom" none) (sampleWorld "boom" none) sampleRequest
      (sampleResponse 200 "200 OK" "text/html" (some 0)) rfl rfl).2.2 (by decide)
      (.lib ("expected response to be JSON, got " ++ Quote "text/html")) rfl).2

/-- C7 (counterexample). The transport answers 500 with a body that has not
been closed; when `doGet` returns the body has been closed twice: once by the
function deferred in `errorFromResponse`, once by the one deferred in `doGet`. -/
theorem doGet_closes_twice_counterexample :
    ((sampleWorld "boom" none).readers 0).closes = 0 ∧
    ((((sampleClient "http" "" (sampleResponse 500 "500 Internal Server Error" "" (some 0))
        ).doGet sampleStd sampleUnmarshal Background "/identities/me" (some []) ""
          (sampleWorld "boom" none)).2.2).readers 0).closes = 2 ∧
    ((((sampleClient "http" "" (sampleResponse 500 "500 Internal Server Error" "" (some 0))
        ).doGet sampleStd sampleUnmarshal Background "/identities/me" (some []) ""
          (sampleWorld "boom" none)).2.2).readers 0).closes ≠ 0 + 1 := by
  refine ⟨rfl, rfl, ?_⟩
  intro h
  exact absurd h (by decide)

/-- C7 (amended). When the transport returns a response with a body, `doGet`
returns, and by then the body has been closed: once when the status is in
200..299 (the paths of success and of a decode error), twice when the status
is outside 200..299 (the path of a classification error). -/
theorem doGet_closes_body {T : Type} (L : Std) (Unmarshal : String → T → Option String × T)
    (c : Client) (ctx : Context) (path : String) (params : Option Values) (output : T)
    (w w1 : World) (req : Request) (resp : Response) (r : Nat)
    (hreq : c.newRequest L "GET" path params = .ok req)
    (hdo : c.hc (req.WithContext ctx) w = (.ok resp, w1))
    (hb : resp.Body = some r) :
    (∃ res, (c.doGet L Unmarshal ctx path params output w).1 = .ret res) ∧
    ((200 ≤ resp.StatusCode ∧ resp.StatusCode ≤ 299) →
      (((c.doGet L Unmarshal ctx path params output w).2.2).readers r).closes =
        (w1.readers r).closes + 1) ∧
    (¬ (200 ≤ resp.StatusCode ∧ resp.StatusCode ≤ 299) →
      (((c.doGet L Unmarshal ctx path params output w).2.2).readers r).closes =
        (w1.readers r).closes + 2) := by
  have hget := doGet_of_response L Unmarshal c ctx path params output w w1 req resp hreq hdo
  have h2xx : (200 ≤ resp.StatusCode ∧ resp.StatusCode ≤ 299) →
      (∃ res, (c.doGet L Unmarshal ctx path params output w).1 = .ret res) ∧
      (((c.doGet L Unmarshal ctx path params output w).2.2).readers r).closes =
        (w1.readers r).closes + 1 := by
    intro h
    rw [hget, if_pos h]
    rcases decodeResponseAsJSON_cases Unmarshal resp resp.Body output
        (w1.Infow req.Method req.URL.String resp.StatusCode) with
      ⟨eo, out1, heq, _⟩ | ⟨hnone, _⟩ | ⟨r1, eo, out1, _, heq, _⟩
    · rw [heq]
      cases eo with
      | none => exact ⟨⟨_, rfl⟩, by simp only [deferredClose_closes resp _ r hb]; rfl⟩
      | some e => exact ⟨⟨_, rfl⟩, by simp only [deferredClose_closes resp _ r hb]; rfl⟩
    · rw [hb] at hnone
      cases hnone
    · rw [heq]
      cases eo with
      | none =>
        exact ⟨⟨_, rfl⟩, by simp only [deferredClose_closes resp _ r hb, ReadAll_closes]; rfl⟩
      | some e =>
        exact ⟨⟨_, rfl⟩, by simp only [deferredClose_closes resp _ r hb, ReadAll_closes]; rfl⟩
  refine ⟨?_, fun h => (h2xx h).2, ?_⟩
  · by_cases h : 200 ≤ resp.StatusCode ∧ resp.StatusCode ≤ 299
    · exact (h2xx h).1
    · rw [hget, if_neg h]
      exact ⟨_, rfl⟩
  · intro h
    rw [hget, if_neg h]
    simp only [errorFromResponse_world req resp "Checkpoint" [] _ r h hb,
      deferredClose_closes resp _ r hb, ReadAll_closes]
    rfl

/-- C7 (amended) at the client of `http://example.com` whose transport
answers 200 with a JSON body, 200 with the content type `text/html`, and 500. -/
theorem doGet_closes_body_witness :
    ((((sampleClient "http" "" (sampleResponse 200 "200 OK" "application/json" (some 0))
        ).doGet sampleStd sampleUnmarshal Background "/identities/me" (some []) ""
          (sampleWorld "ok" none)).2.2).readers 0).closes = 0 + 1 ∧
    ((((sampleClient "http" "" (sampleResponse 200 "200 OK" "text/html" (some 0))
        ).doGet sampleStd sampleUnmarshal Background "/identities/me" (some []) ""
          (sampleWorld "ok" none)).2.2).readers 0).closes = 0 + 1 ∧
    ((((sampleClient "http" "" (sampleResponse 500 "500 Internal Server Error" "" (some 0))
        ).doGet sampleStd sampleUnmarshal Background "/identities/me" (some []) ""
          (sampleWorld "boom" none)).2.2).readers 0).closes = 0 + 2 :=
  ⟨(doGet_closes_body sampleStd sampleUnmarshal
      (sampleClient "http" "" (sampleResponse 200 "200 OK" "application/json" (some 0)))
      Background "/identities/me" (some []) "" (sampleWorld "ok" none) (sampleWorld "ok" none)
      sampleRequest (sampleResponse 200 "200 OK" "application/json" (some 0)) 0
      rfl rfl rfl).2.1 (by decide),
   (doGet_closes_body sampleStd sampleUnmarshal
      (sampleClient "http" "" (sampleResponse 200 "200 OK" "text/html" (some 0)))
      Background "/identities/me" (some []) "" (sampleWorld "ok" none) (sampleWorld "ok" none)
      sampleRequest (sampleResponse 200 "200 OK" "text/html" (some 0)) 0
      rfl rfl rfl).2.1 (by decide),
   (doGet_closes_body sampleStd sampleUnmarshal
      (sampleClient "http" "" (sampleResponse 500 "500 Internal Server Error" "" (some 0)))
      Background "/identities/me" (some []) "" (sampleWorld "boom" none)
      (sampleWorld "boom" none) sampleRequest
      (sampleResponse 500 "500 Internal Server Error" "" (some 0)) 0
      rfl rfl rfl).2.2 (by decide)⟩

end checkpoint
